import Mathlib

/-!
# goback: snapshot orchestration (`src/goback/goback.go`)

A shallow embedding of the backup orchestrator of `goback.go`:

* the naming functions `Namer.Snapvol`, `Namer.SnapVgName`, `Backup.snapName`;
* the command builders `snapshot`, `activate`, `deactivate`, `mount`, `umount`,
  `fsck`, `runGosure`;
* the orchestration `Backup.MakeSnap`, `Backup.goSureOne`, `Backup.GoSure`.

External commands are not executed.  Every function that calls `cmd.Run()`
receives the outcome of that run (`RunResult`) from the environment and returns,
next to its Go result, the list of commands it handed to `Run`, in order.
A function ends by returning `nil`, by returning an error, or by a panic
(`Ret`); deferred calls are appended to the command list at every end of the
function, last deferred first.

Go strings are Lean strings; `fmt.Sprintf` and `path.Join` are modelled on
character lists.  The log lines of `showCommand` and the call `sudo.Setup()`
that opens each command builder are left out: they build no command of
`goback.go`.  The declarations of other files that `goback.go` calls
(`sudo.Sudoify`, `VgName.DevName`, `VgName.TextName`, `FsInfo.VgName`,
`LVInfo.HasSnap`) are parameters of the embedding.
-/

namespace Goback

/-! ## Data model -/

/-- The type `VgName`: a logical volume `LV` inside the volume group `VG`
(built in `Namer.SnapVgName` by the literal `VgName{VG: ..., LV: ...}`). -/
structure VgName where
  VG : String
  LV : String
  deriving DecidableEq, Repr

/-- The type `FsInfo`: one filesystem of the host configuration.  The fields
are the ones `goback.go` reads: `fs.Volgroup`, `fs.Lvname`, `fs.Mount`. -/
structure FsInfo where
  Volgroup : String
  Lvname : String
  Mount : String
  deriving DecidableEq, Repr

/-- The type `Host`: the filesystems to back up, in configuration order, and
the directory under which snapshots are mounted. -/
structure Host where
  Filesystems : List FsInfo
  Snapdir : String

/-- The type `Namer`: the backup date, fixed when the run starts. -/
structure Namer where
  date : String
  deriving DecidableEq, Repr

/-- The type `LVInfo`: the volume inventory.  `goback.go` only asks it
`HasSnap(snap)`, so the inventory is represented by that query. -/
structure LVInfo where
  HasSnap : VgName → Bool

/-- The type `Backup` (`conf` is not read by the functions embedded here). -/
structure Backup where
  namer : Namer
  host : Host
  lvm : LVInfo

/-- A value of `*exec.Cmd`: `name` and `args` are the arguments of
`exec.Command(name, args...)`, `dir` is the field `cmd.Dir` (empty: the
working directory of the calling process). -/
structure Cmd where
  name : String
  args : List String
  dir : String
  deriving DecidableEq, Repr

/-- The declarations that `goback.go` uses and that live in other files:
`sudo.Sudoify`, the methods `DevName` and `TextName` of `VgName`, and the
method `VgName` of `FsInfo`. -/
structure Deps where
  Sudoify : Cmd → Cmd
  DevName : VgName → String
  TextName : VgName → String
  FsVgName : FsInfo → VgName

/-- What the environment does with a command handed to `cmd.Run()`. -/
inductive RunResult where
  /-- The process ran and exited with this status. -/
  | exited (status : Nat)
  /-- The process ran and was killed by a signal (`ExitStatus()` is `-1`). -/
  | signaled
  /-- The process could not be started (`cmd.ProcessState` stays `nil`). -/
  | notStarted
  deriving DecidableEq, Repr

/-- Go `error` values that occur in `goback.go`. -/
inductive Error where
  /-- The value of `errors.New(fmt.Sprintf("Volume %s already present", snap))`. -/
  | present (snap : VgName)
  /-- The error `cmd.Run()` returned for command `c` with outcome `r`. -/
  | run (c : Cmd) (r : RunResult)
  deriving DecidableEq, Repr

/-- How a call of a Go function with result `err error` ends. -/
inductive Ret where
  /-- It returned `nil`. -/
  | nil
  /-- It returned the non-nil error `e`. -/
  | err (e : Error)
  /-- It did not return: a run-time panic unwinds the stack. -/
  | panic
  deriving DecidableEq, Repr

/-! ## Library functions: `fmt.Sprintf`, `path.Join`, `exec` -/

/-- The function `fmt.Sprintf` for formats whose only verb is `%s` and whose
operands are strings: each `%s` is replaced by the next operand. -/
def Sprintf : List Char → List String → List Char
  | '%' :: 's' :: rest, a :: as => a.data ++ Sprintf rest as
  | '%' :: 's' :: rest, [] => "%!s(MISSING)".data ++ Sprintf rest []
  | c :: rest, as => c :: Sprintf rest as
  | [], _ => []

/-- The elements of a path: the pieces between the slashes. -/
def pathElems : List Char → List (List Char)
  | [] => [[]]
  | c :: cs =>
    if c = '/' then [] :: pathElems cs
    else match pathElems cs with
      | [] => [[c]]
      | e :: es => (c :: e) :: es

/-- One element of `path.Clean`: `out` holds the elements kept so far, last
one first.  Empty and `.` elements are dropped; `..` removes the preceding
non-`..` element, is dropped at the root, and is kept otherwise. -/
def cleanStep (rooted : Bool) (out : List (List Char)) (e : List Char) :
    List (List Char) :=
  if e = [] ∨ e = ['.'] then out
  else if e = ['.', '.'] then
    match out with
    | [] => if rooted then [] else [e]
    | top :: below => if top = ['.', '.'] then e :: out else below
  else e :: out

/-- The function `path.Clean` (lexical): the shortest equivalent path. -/
def pathClean (p : List Char) : List Char :=
  if p = [] then ['.']
  else
    let rooted := p.head? = some '/'
    let kept := ((pathElems p).foldl (cleanStep rooted) []).reverse
    let body := List.intercalate ['/'] kept
    if rooted then '/' :: body
    else if body = [] then ['.'] else body

/-- The function `path.Join` for two elements: empty elements are ignored, the
others are joined by a slash and the result is cleaned. -/
def pathJoin (a b : String) : String :=
  let elems := [a.data, b.data].filter (fun e => e ≠ [])
  if elems = [] then "" else ⟨pathClean (List.intercalate ['/'] elems)⟩

/-- The function `exec.Command`: `cmd.Dir` starts empty. -/
def Command (name : String) (args : List String) : Cmd :=
  ⟨name, args, ""⟩

/-- The result of `cmd.Run()`: `nil` exactly when the process ran and exited
with status 0. -/
def Run (c : Cmd) (r : RunResult) : Ret :=
  match r with
  | .exited 0 => .nil
  | _ => .err (.run c r)

/-- The value of `cmd.ProcessState.Sys().(syscall.WaitStatus).ExitStatus()`
after `cmd.Run()`; `none` when `cmd.ProcessState` is `nil`, where the
expression panics. -/
def ExitStatus (r : RunResult) : Option Int :=
  match r with
  | .exited s => some (s : Int)
  | .signaled => some (-1)
  | .notStarted => none

/-! ## Naming -/

/-- The method `Namer.Snapvol`. -/
def Namer.Snapvol (n : Namer) (fs : FsInfo) : String :=
  ⟨Sprintf "%s.%s".data [fs.Lvname, n.date]⟩

/-- The method `Namer.SnapVgName`. -/
def Namer.SnapVgName (n : Namer) (fs : FsInfo) : VgName :=
  { VG := fs.Volgroup, LV := n.Snapvol fs }

/-- The method `Backup.snapName`: the mount point of the snapshot of `fs`. -/
def Backup.snapName (b : Backup) (fs : FsInfo) : String :=
  pathJoin b.host.Snapdir fs.Lvname

/-- The variable `gosurePath`. -/
def gosurePath : String := "/home/davidb/bin/gosure"

/-! ## Commands -/

/-- The function `snapshot`: `lvcreate -s <base> -n <snap.LV>`. -/
def snapshot (x : Deps) (base snap : VgName) (r : RunResult) : Ret × List Cmd :=
  let cmd := Command "lvcreate" ["-s", x.TextName base, "-n", snap.LV]
  let cmd := x.Sudoify cmd
  (Run cmd r, [cmd])

/-- The method `Backup.activate`: `lvchange -ay -K <device>`. -/
def Backup.activate (x : Deps) (vol : VgName) (r : RunResult) : Ret × List Cmd :=
  let cmd := Command "lvchange" ["-ay", "-K", x.DevName vol]
  let cmd := x.Sudoify cmd
  (Run cmd r, [cmd])

/-- The method `Backup.deactivate`: `lvchange -an <device>`. -/
def Backup.deactivate (x : Deps) (vol : VgName) (r : RunResult) : Ret × List Cmd :=
  let cmd := Command "lvchange" ["-an", x.DevName vol]
  let cmd := x.Sudoify cmd
  (Run cmd r, [cmd])

/-- The method `Backup.mount`: the flag `-r` is appended when `writable` holds,
then the device and the destination. -/
def Backup.mount (x : Deps) (vol : VgName) (dest : String) (writable : Bool)
    (r : RunResult) : Ret × List Cmd :=
  let flags : List String := []
  let flags := if writable then flags ++ ["-r"] else flags
  let flags := flags ++ [x.DevName vol]
  let flags := flags ++ [dest]
  let cmd := Command "mount" flags
  let cmd := x.Sudoify cmd
  (Run cmd r, [cmd])

/-- The method `Backup.umount`: `umount <device>`. -/
def Backup.umount (x : Deps) (vol : VgName) (r : RunResult) : Ret × List Cmd :=
  let cmd := Command "umount" [x.DevName vol]
  let cmd := x.Sudoify cmd
  (Run cmd r, [cmd])

/-- The method `Backup.fsck`: `fsck -p -f <device>`.  When `Run` fails the
exit status is read from `cmd.ProcessState`, and status 1 clears the error. -/
def Backup.fsck (x : Deps) (vol : VgName) (r : RunResult) : Ret × List Cmd :=
  let cmd := Command "fsck" ["-p", "-f", x.DevName vol]
  let cmd := x.Sudoify cmd
  let err := Run cmd r
  if err ≠ .nil then
    match ExitStatus r with
    | none => (.panic, [cmd])
    | some stat => if stat = 1 then (.nil, [cmd]) else (err, [cmd])
  else (err, [cmd])

/-- The method `Backup.runGosure`: the scanner is run with `-file <place>
update`, where `place` is `path.Join(fs.Mount, "2sure")`, in the directory
`b.snapName(fs)`. -/
def Backup.runGosure (x : Deps) (b : Backup) (fs : FsInfo) (r : RunResult) :
    Ret × List Cmd :=
  let place := pathJoin fs.Mount "2sure"
  let cmd := Command gosurePath ["-file", place, "update"]
  let cmd := x.Sudoify cmd
  let cmd := { cmd with dir := b.snapName fs }
  (Run cmd r, [cmd])

/-! ## Orchestration -/

/-- The first loop of `Backup.MakeSnap`: the first filesystem whose snapshot is
already in the inventory ends the function with an error. -/
def Backup.MakeSnap.verify (b : Backup) : List FsInfo → Ret
  | [] => .nil
  | fs :: rest =>
    let snap := b.namer.SnapVgName fs
    if b.lvm.HasSnap snap then .err (.present snap)
    else Backup.MakeSnap.verify b rest

/-- The second loop of `Backup.MakeSnap`: `ω i` is the outcome of the
`lvcreate` of the `i`-th filesystem of the list. -/
def Backup.MakeSnap.construct (x : Deps) (b : Backup) (ω : Nat → RunResult) :
    List FsInfo → Ret × List Cmd
  | [] => (.nil, [])
  | fs :: rest =>
    let base := x.FsVgName fs
    let snap := b.namer.SnapVgName fs
    let (err, cs) := snapshot x base snap (ω 0)
    if err ≠ .nil then (err, cs)
    else
      let (err, cs') := Backup.MakeSnap.construct x b (fun i => ω (i + 1)) rest
      (err, cs ++ cs')

/-- The method `Backup.MakeSnap`; `ω i` is the outcome of the `lvcreate` of
the `i`-th filesystem. -/
def Backup.MakeSnap (x : Deps) (b : Backup) (ω : Nat → RunResult) : Ret × List Cmd :=
  let err := Backup.MakeSnap.verify b b.host.Filesystems
  if err ≠ .nil then (err, [])
  else Backup.MakeSnap.construct x b ω b.host.Filesystems

/-- The outcomes the environment gives to the six commands of one filesystem
cycle (each is run at most once per cycle). -/
structure Outcomes where
  activate : RunResult
  fsck : RunResult
  mount : RunResult
  scan : RunResult
  umount : RunResult
  deactivate : RunResult
  deriving DecidableEq, Repr

/-- The method `Backup.goSureOne`.  The deferred calls run when the function
ends, last deferred first, also when it ends by a panic; their results are
discarded. -/
def Backup.goSureOne (x : Deps) (b : Backup) (fs : FsInfo) (o : Outcomes) :
    Ret × List Cmd :=
  let snap := b.namer.SnapVgName fs
  let smount := b.snapName fs
  let (err, c1) := Backup.activate x snap o.activate
  if err ≠ .nil then (err, c1)
  else
    let deferDeactivate := (Backup.deactivate x snap o.deactivate).2
    let (err, c2) := Backup.fsck x snap o.fsck
    if err ≠ .nil then (err, c1 ++ c2 ++ deferDeactivate)
    else
      let (err, c3) := Backup.mount x snap smount false o.mount
      if err ≠ .nil then (err, c1 ++ c2 ++ c3 ++ deferDeactivate)
      else
        let deferUmount := (Backup.umount x snap o.umount).2
        let (err, c4) := Backup.runGosure x b fs o.scan
        if err ≠ .nil then (err, c1 ++ c2 ++ c3 ++ c4 ++ deferUmount ++ deferDeactivate)
        else (err, c1 ++ c2 ++ c3 ++ c4 ++ deferUmount ++ deferDeactivate)

/-- The loop of `Backup.GoSure`: `ω i` holds the outcomes for the cycle of the
`i`-th filesystem of the list. -/
def Backup.GoSure.loop (x : Deps) (b : Backup) (ω : Nat → Outcomes) :
    List FsInfo → Ret × List Cmd
  | [] => (.nil, [])
  | fs :: rest =>
    let (err, cs) := Backup.goSureOne x b fs (ω 0)
    if err ≠ .nil then (err, cs)
    else
      let (err, cs') := Backup.GoSure.loop x b (fun i => ω (i + 1)) rest
      (err, cs ++ cs')

/-- The method `Backup.GoSure`. -/
def Backup.GoSure (x : Deps) (b : Backup) (ω : Nat → Outcomes) : Ret × List Cmd :=
  Backup.GoSure.loop x b ω b.host.Filesystems

/-! ## A concrete environment -/

/-- Modelled from the spec: the declarations of `Deps`, which are in files other
than `goback.go`.  The device path is `/dev/mapper/<group>-<name>`, the text
name is `<group>/<name>`, the volume of a filesystem is its volume group and
logical volume, and privileged execution leaves the command as it is. -/
def specDeps : Deps where
  Sudoify := fun c => c
  DevName := fun v => "/dev/mapper/" ++ v.VG ++ "-" ++ v.LV
  TextName := fun v => v.VG ++ "/" ++ v.LV
  FsVgName := fun fs => ⟨fs.Volgroup, fs.Lvname⟩

/-- The filesystem `vg0/root`, mounted at `/`. -/
def rootFs : FsInfo := ⟨"vg0", "root", "/"⟩

/-- The filesystem `vg0/home`, mounted at `/home`. -/
def homeFs : FsInfo := ⟨"vg0", "home", "/home"⟩

/-- An inventory that holds exactly the listed volumes. -/
def inventory (vols : List VgName) : LVInfo := ⟨fun v => decide (v ∈ vols)⟩

/-- A run of the date `2024.01.15` over the given filesystems, with snapshots
mounted under `/mnt/snap`. -/
def backupOf (fss : List FsInfo) (vols : List VgName) : Backup :=
  ⟨⟨"2024.01.15"⟩, ⟨fss, "/mnt/snap"⟩, inventory vols⟩

/-- A cycle in which every command exits with status 0. -/
def allOk : Outcomes :=
  ⟨.exited 0, .exited 0, .exited 0, .exited 0, .exited 0, .exited 0⟩

/-! ## Words of the specification -/

/-- The command `lvcreate -s <fs.VgName().TextName()> -n <fs.Lvname>.<date>`. -/
def lvcreateCmd (x : Deps) (n : Namer) (fs : FsInfo) : Cmd :=
  x.Sudoify (Command "lvcreate"
    ["-s", x.TextName (x.FsVgName fs), "-n", fs.Lvname ++ "." ++ n.date])

/-- The command `lvchange -ay -K <device>`. -/
def activateCmd (x : Deps) (vol : VgName) : Cmd :=
  x.Sudoify (Command "lvchange" ["-ay", "-K", x.DevName vol])

/-- The command `lvchange -an <device>`. -/
def deactivateCmd (x : Deps) (vol : VgName) : Cmd :=
  x.Sudoify (Command "lvchange" ["-an", x.DevName vol])

/-- The command `fsck -p -f <device>`. -/
def fsckCmd (x : Deps) (vol : VgName) : Cmd :=
  x.Sudoify (Command "fsck" ["-p", "-f", x.DevName vol])

/-- The command `umount <device>`. -/
def umountCmd (x : Deps) (vol : VgName) : Cmd :=
  x.Sudoify (Command "umount" [x.DevName vol])

/-- The command `mount` with the given argument list. -/
def mountCmd (x : Deps) (args : List String) : Cmd :=
  x.Sudoify (Command "mount" args)

/-- The scanner command: `-file <place> update`, run in the directory `dir`. -/
def scanCmd (x : Deps) (place dir : String) : Cmd :=
  { x.Sudoify (Command gosurePath ["-file", place, "update"]) with dir := dir }

/-- The six commands of the cycle of one filesystem, as `goSureOne` builds
them. -/
structure CycleCmds where
  activate : Cmd
  fsck : Cmd
  mount : Cmd
  scan : Cmd
  umount : Cmd
  deactivate : Cmd

/-- The commands of the cycle of `fs`. -/
def cycleCmds (x : Deps) (b : Backup) (fs : FsInfo) : CycleCmds where
  activate := activateCmd x (b.namer.SnapVgName fs)
  fsck := fsckCmd x (b.namer.SnapVgName fs)
  mount := mountCmd x [x.DevName (b.namer.SnapVgName fs), b.snapName fs]
  scan := scanCmd x (pathJoin fs.Mount "2sure") (b.snapName fs)
  umount := umountCmd x (b.namer.SnapVgName fs)
  deactivate := deactivateCmd x (b.namer.SnapVgName fs)

/-- A command exited with status 0. -/
def exitedZero (r : RunResult) : Bool := decide (r = .exited 0)

/-- The integrity check exited with status 0 or 1. -/
def exitedZeroOrOne (r : RunResult) : Bool :=
  decide (r = .exited 0 ∨ r = .exited 1)

/-- A sequence of steps, each a command with whether it succeeds, cut off right
after the first step that fails. -/
def cutAfterFailure : List (Cmd × Bool) → List Cmd
  | [] => []
  | (c, ok) :: rest => c :: (if ok then cutAfterFailure rest else [])

/-- The result of the first step that does not return `nil`; `nil` when every
step does. -/
def firstFailure : List Ret → Ret
  | [] => .nil
  | r :: rest => if r = .nil then firstFailure rest else r

/-- The cycles of all the filesystems of a list, one after the other, whatever
their results: `ω i` holds the outcomes for the `i`-th filesystem. -/
def everyCycle (x : Deps) (b : Backup) (ω : Nat → Outcomes) :
    List FsInfo → List (Ret × List Cmd)
  | [] => []
  | fs :: rest =>
    Backup.goSureOne x b fs (ω 0) :: everyCycle x b (fun i => ω (i + 1)) rest

/-- The commands of a list of cycles, in order. -/
def commandsOf (cycles : List (Ret × List Cmd)) : List Cmd :=
  (cycles.map (fun c => c.2)).flatten

/-- A cycle whose activation exits with status 5. -/
def activationFails : Outcomes := { allOk with activate := .exited 5 }

/-- The filesystem `vg0/root` listed with another mount point. -/
def rootFsElsewhere : FsInfo := ⟨"vg0", "root", "/mnt/other"⟩

/-! ## Naming: lemmas -/

theorem Snapvol_eq (n : Namer) (fs : FsInfo) :
    n.Snapvol fs = fs.Lvname ++ "." ++ n.date := by
  simp only [Namer.Snapvol, Sprintf]
  apply String.ext
  simp

theorem append_date_inj (a b d : String) (h : a ++ "." ++ d = b ++ "." ++ d) :
    a = b := by
  have h' := congrArg String.data h
  simp only [String.data_append, List.append_assoc] at h'
  exact String.ext (List.append_cancel_right h')

theorem SnapVgName_eq_iff (n : Namer) (fs1 fs2 : FsInfo) :
    n.SnapVgName fs1 = n.SnapVgName fs2 ↔
      fs1.Volgroup = fs2.Volgroup ∧ fs1.Lvname = fs2.Lvname := by
  simp only [Namer.SnapVgName, Snapvol_eq, VgName.mk.injEq]
  constructor
  · rintro ⟨hv, hl⟩
    exact ⟨hv, append_date_inj _ _ _ hl⟩
  · rintro ⟨hv, hl⟩
    rw [hv, hl]
    exact ⟨rfl, rfl⟩

/-! ## `MakeSnap`: lemmas -/

theorem Run_ok (c : Cmd) : Run c (.exited 0) = .nil := rfl

theorem Run_eq_nil_iff (c : Cmd) (r : RunResult) : Run c r = .nil ↔ r = .exited 0 := by
  cases r with
  | exited s => cases s <;> simp [Run]
  | signaled => simp [Run]
  | notStarted => simp [Run]

theorem Run_of_ne (c : Cmd) (r : RunResult) (h : r ≠ .exited 0) :
    Run c r = .err (.run c r) := by
  cases r with
  | exited s =>
    cases s with
    | zero => exact absurd rfl h
    | succ k => rfl
  | signaled => rfl
  | notStarted => rfl

theorem snapshot_eq (x : Deps) (b : Backup) (fs : FsInfo) (r : RunResult) :
    snapshot x (x.FsVgName fs) (b.namer.SnapVgName fs) r =
      (Run (lvcreateCmd x b.namer fs) r, [lvcreateCmd x b.namer fs]) := by
  simp only [snapshot, lvcreateCmd, Namer.SnapVgName, Snapvol_eq]

theorem verify_of_collision (b : Backup) (fss : List FsInfo)
    (h : ∃ fs ∈ fss, b.lvm.HasSnap (b.namer.SnapVgName fs) = true) :
    ∃ fs ∈ fss, b.lvm.HasSnap (b.namer.SnapVgName fs) = true ∧
      Backup.MakeSnap.verify b fss = .err (.present (b.namer.SnapVgName fs)) := by
  induction fss with
  | nil =>
    obtain ⟨fs, hmem, _⟩ := h
    cases hmem
  | cons fs rest ih =>
    by_cases hc : b.lvm.HasSnap (b.namer.SnapVgName fs) = true
    · exact ⟨fs, List.mem_cons_self _ _, hc, by simp [Backup.MakeSnap.verify, hc]⟩
    · have hrest : ∃ g ∈ rest, b.lvm.HasSnap (b.namer.SnapVgName g) = true := by
        obtain ⟨g, hmem, hg⟩ := h
        rcases List.mem_cons.mp hmem with rfl | hmem'
        · exact absurd hg hc
        · exact ⟨g, hmem', hg⟩
      obtain ⟨g, hmem, hg, hv⟩ := ih hrest
      exact ⟨g, List.mem_cons_of_mem _ hmem, hg, by simp [Backup.MakeSnap.verify, hc, hv]⟩

theorem verify_of_free (b : Backup) (fss : List FsInfo)
    (h : ∀ fs ∈ fss, b.lvm.HasSnap (b.namer.SnapVgName fs) = false) :
    Backup.MakeSnap.verify b fss = .nil := by
  induction fss with
  | nil => rfl
  | cons fs rest ih =>
    have h0 := h fs (List.mem_cons_self _ _)
    simp only [Backup.MakeSnap.verify, h0]
    exact ih (fun g hg => h g (List.mem_cons_of_mem _ hg))

theorem construct_all_ok (x : Deps) (b : Backup) (fss : List FsInfo)
    (ω : Nat → RunResult) (h : ∀ i, i < fss.length → ω i = .exited 0) :
    Backup.MakeSnap.construct x b ω fss = (.nil, fss.map (lvcreateCmd x b.namer)) := by
  induction fss generalizing ω with
  | nil => rfl
  | cons fs rest ih =>
    have h0 : ω 0 = .exited 0 := h 0 (by simp)
    have hrest : ∀ i, i < rest.length → (fun i => ω (i + 1)) i = .exited 0 :=
      fun i hi => h (i + 1) (by simpa using hi)
    simp [Backup.MakeSnap.construct, snapshot_eq, h0, Run_ok, ih _ hrest]

theorem construct_first_failure (x : Deps) (b : Backup) (pre : List FsInfo)
    (fs : FsInfo) (post : List FsInfo) (ω : Nat → RunResult)
    (hpre : ∀ i, i < pre.length → ω i = .exited 0)
    (hfail : ω pre.length ≠ .exited 0) :
    Backup.MakeSnap.construct x b ω (pre ++ fs :: post) =
      (.err (.run (lvcreateCmd x b.namer fs) (ω pre.length)),
        (pre ++ [fs]).map (lvcreateCmd x b.namer)) := by
  induction pre generalizing ω with
  | nil =>
    have hf : ω 0 ≠ .exited 0 := by simpa using hfail
    simp [Backup.MakeSnap.construct, snapshot_eq, Run_of_ne _ _ hf]
  | cons g rest ih =>
    have h0 : ω 0 = .exited 0 := hpre 0 (by simp)
    have hrest : ∀ i, i < rest.length → (fun i => ω (i + 1)) i = .exited 0 :=
      fun i hi => hpre (i + 1) (by simpa using hi)
    have hf : (fun i => ω (i + 1)) rest.length ≠ .exited 0 := by simpa using hfail
    simp [Backup.MakeSnap.construct, snapshot_eq, h0, Run_ok, ih _ hrest hf]

/-! ## The filesystem cycle: lemmas -/

theorem fsck_eq (x : Deps) (vol : VgName) (r : RunResult) :
    Backup.fsck x vol r =
      (match r with
        | .exited 0 => Ret.nil
        | .exited 1 => Ret.nil
        | .notStarted => Ret.panic
        | r => Ret.err (.run (fsckCmd x vol) r),
       [fsckCmd x vol]) := by
  cases r with
  | exited s =>
    match s with
    | 0 => simp [Backup.fsck, fsckCmd, Run, ExitStatus]
    | 1 => simp [Backup.fsck, fsckCmd, Run, ExitStatus]
    | (k + 2) =>
      have h : ((k : Int) + 2 = 1) = False := by
        apply eq_false; omega
      simp [Backup.fsck, fsckCmd, Run, ExitStatus, h]
  | signaled => simp [Backup.fsck, fsckCmd, Run, ExitStatus]
  | notStarted => simp [Backup.fsck, fsckCmd, Run, ExitStatus]

theorem fsck_fst_eq_nil_iff (x : Deps) (vol : VgName) (r : RunResult) :
    (Backup.fsck x vol r).1 = .nil ↔ (r = .exited 0 ∨ r = .exited 1) := by
  rw [fsck_eq]
  cases r with
  | exited s =>
    match s with
    | 0 => simp
    | 1 => simp
    | (k + 2) => simp
  | signaled => simp
  | notStarted => simp

theorem goSureOne_eq (x : Deps) (b : Backup) (fs : FsInfo) (o : Outcomes) :
    Backup.goSureOne x b fs o =
      (let snap := b.namer.SnapVgName fs
       let a := activateCmd x snap
       let f := fsckCmd x snap
       let m := mountCmd x [x.DevName snap, b.snapName fs]
       let s := scanCmd x (pathJoin fs.Mount "2sure") (b.snapName fs)
       let u := umountCmd x snap
       let d := deactivateCmd x snap
       if o.activate ≠ .exited 0 then (Run a o.activate, [a])
       else if ¬ (o.fsck = .exited 0 ∨ o.fsck = .exited 1) then
         ((Backup.fsck x snap o.fsck).1, [a, f, d])
       else if o.mount ≠ .exited 0 then (Run m o.mount, [a, f, m, d])
       else (Run s o.scan, [a, f, m, s, u, d])) := by
  by_cases ha : o.activate = .exited 0
  · by_cases hf : o.fsck = .exited 0 ∨ o.fsck = .exited 1
    · have hf' := (fsck_fst_eq_nil_iff x (b.namer.SnapVgName fs) o.fsck).mpr hf
      have hf2 : (Backup.fsck x (b.namer.SnapVgName fs) o.fsck).2 =
          [fsckCmd x (b.namer.SnapVgName fs)] := by rw [fsck_eq]
      by_cases hm : o.mount = .exited 0
      · simp [Backup.goSureOne, Backup.activate, Backup.deactivate, Backup.mount,
          Backup.umount, Backup.runGosure, activateCmd, deactivateCmd, mountCmd,
          scanCmd, umountCmd, ha, hf, hm, hf', hf2, Run_ok]
      · simp [Backup.goSureOne, Backup.activate, Backup.deactivate, Backup.mount,
          activateCmd, deactivateCmd, mountCmd, ha, hf, hm, hf', hf2, Run_ok,
          Run_eq_nil_iff]
    · have hf' : ¬ (Backup.fsck x (b.namer.SnapVgName fs) o.fsck).1 = .nil :=
        fun h => hf ((fsck_fst_eq_nil_iff x _ o.fsck).mp h)
      have hf2 : (Backup.fsck x (b.namer.SnapVgName fs) o.fsck).2 =
          [fsckCmd x (b.namer.SnapVgName fs)] := by rw [fsck_eq]
      simp [Backup.goSureOne, Backup.activate, Backup.deactivate, activateCmd,
        deactivateCmd, ha, hf, hf', hf2, Run_ok]
  · simp [Backup.goSureOne, Backup.activate, activateCmd, ha, Run_eq_nil_iff]

theorem goSureOne_cases (x : Deps) (b : Backup) (fs : FsInfo) (o : Outcomes) :
    Backup.goSureOne x b fs o =
      (if o.activate ≠ .exited 0 then
         (Run (cycleCmds x b fs).activate o.activate, [(cycleCmds x b fs).activate])
       else if ¬ (o.fsck = .exited 0 ∨ o.fsck = .exited 1) then
         ((Backup.fsck x (b.namer.SnapVgName fs) o.fsck).1,
           [(cycleCmds x b fs).activate, (cycleCmds x b fs).fsck,
            (cycleCmds x b fs).deactivate])
       else if o.mount ≠ .exited 0 then
         (Run (cycleCmds x b fs).mount o.mount,
           [(cycleCmds x b fs).activate, (cycleCmds x b fs).fsck,
            (cycleCmds x b fs).mount, (cycleCmds x b fs).deactivate])
       else
         (Run (cycleCmds x b fs).scan o.scan,
           [(cycleCmds x b fs).activate, (cycleCmds x b fs).fsck,
            (cycleCmds x b fs).mount, (cycleCmds x b fs).scan,
            (cycleCmds x b fs).umount, (cycleCmds x b fs).deactivate])) := by
  rw [goSureOne_eq]
  rfl

/-! ## `GoSure`: lemmas -/

theorem loop_all_nil (x : Deps) (b : Backup) (fss : List FsInfo) (ω : Nat → Outcomes)
    (h : ∀ c ∈ everyCycle x b ω fss, c.1 = .nil) :
    Backup.GoSure.loop x b ω fss = (.nil, commandsOf (everyCycle x b ω fss)) := by
  induction fss generalizing ω with
  | nil => rfl
  | cons fs rest ih =>
    have h0 : (Backup.goSureOne x b fs (ω 0)).1 = .nil :=
      h _ (by simp [everyCycle])
    have hrest : ∀ c ∈ everyCycle x b (fun i => ω (i + 1)) rest, c.1 = .nil :=
      fun c hc => h c (by simp [everyCycle, hc])
    simp [Backup.GoSure.loop, h0, ih _ hrest, everyCycle, commandsOf]

theorem loop_first_failure (x : Deps) (b : Backup) (pre : List FsInfo) (fs : FsInfo)
    (post : List FsInfo) (ω : Nat → Outcomes)
    (hpre : ∀ c ∈ everyCycle x b ω pre, c.1 = .nil)
    (hfail : (Backup.goSureOne x b fs (ω pre.length)).1 ≠ .nil) :
    Backup.GoSure.loop x b ω (pre ++ fs :: post) =
      ((Backup.goSureOne x b fs (ω pre.length)).1,
        commandsOf (everyCycle x b ω pre) ++ (Backup.goSureOne x b fs (ω pre.length)).2) := by
  induction pre generalizing ω with
  | nil =>
    have hf : (Backup.goSureOne x b fs (ω 0)).1 ≠ .nil := by simpa using hfail
    simp [Backup.GoSure.loop, hf, everyCycle, commandsOf]
  | cons g rest ih =>
    have h0 : (Backup.goSureOne x b g (ω 0)).1 = .nil :=
      hpre _ (by simp [everyCycle])
    have hrest : ∀ c ∈ everyCycle x b (fun i => ω (i + 1)) rest, c.1 = .nil :=
      fun c hc => hpre c (by simp [everyCycle, hc])
    have hf : (Backup.goSureOne x b fs ((fun i => ω (i + 1)) rest.length)).1 ≠ .nil := by
      simpa using hfail
    have hloop := ih _ hrest hf
    simp [Backup.GoSure.loop, h0, hloop, everyCycle, commandsOf]

/-! ## Claims about the pre-flight check and the snapshot creation -/

/-- Claim C1: when the inventory already holds the snapshot of at least one
filesystem of the list, `MakeSnap` returns a non-nil error (the one naming the
snapshot of a colliding filesystem) and hands no command to `Run`. -/
theorem MakeSnap_collision_aborts (x : Deps) (b : Backup) (ω : Nat → RunResult)
    (h : ∃ fs ∈ b.host.Filesystems, b.lvm.HasSnap (b.namer.SnapVgName fs) = true) :
    ∃ fs ∈ b.host.Filesystems, b.lvm.HasSnap (b.namer.SnapVgName fs) = true ∧
      Backup.MakeSnap x b ω = (.err (.present (b.namer.SnapVgName fs)), []) := by
  obtain ⟨fs, hmem, hfs, hv⟩ := verify_of_collision b b.host.Filesystems h
  exact ⟨fs, hmem, hfs, by simp [Backup.MakeSnap, hv]⟩

/-- Witness of C1: `vg0/home` and `vg0/root` are configured and the snapshot
`root.2024.01.15` of the second one is in the inventory; no command is issued,
also not for `vg0/home`. -/
theorem MakeSnap_collision_aborts_witness :
    (∃ fs ∈ (backupOf [homeFs, rootFs] [⟨"vg0", "root.2024.01.15"⟩]).host.Filesystems,
      (backupOf [homeFs, rootFs] [⟨"vg0", "root.2024.01.15"⟩]).lvm.HasSnap
        ((backupOf [homeFs, rootFs] [⟨"vg0", "root.2024.01.15"⟩]).namer.SnapVgName fs) = true) ∧
    (∃ fs ∈ (backupOf [homeFs, rootFs] [⟨"vg0", "root.2024.01.15"⟩]).host.Filesystems,
      (backupOf [homeFs, rootFs] [⟨"vg0", "root.2024.01.15"⟩]).lvm.HasSnap
        ((backupOf [homeFs, rootFs] [⟨"vg0", "root.2024.01.15"⟩]).namer.SnapVgName fs) = true ∧
      Backup.MakeSnap specDeps (backupOf [homeFs, rootFs] [⟨"vg0", "root.2024.01.15"⟩])
          (fun _ => .exited 0) =
        (.err (.present ((backupOf [homeFs, rootFs]
          [⟨"vg0", "root.2024.01.15"⟩]).namer.SnapVgName fs)), [])) :=
  ⟨⟨rootFs, by decide, by decide⟩,
   MakeSnap_collision_aborts specDeps _ _ ⟨rootFs, by decide, by decide⟩⟩

/-- Claim C6: when no snapshot of the list is in the inventory, `MakeSnap`
issues one `lvcreate -s <text name of the source> -n <Lvname>.<date>` per
filesystem, in order; it stops right after the first command that fails and
returns that failure, and returns nil when all succeed.  For the single
filesystem `vg0/root` and the date `2024.01.15` exactly one command, naming
the snapshot `root.2024.01.15`, is issued. -/
theorem MakeSnap_creates_in_order (x : Deps) (b : Backup) (ω : Nat → RunResult)
    (hfree : ∀ fs ∈ b.host.Filesystems, b.lvm.HasSnap (b.namer.SnapVgName fs) = false) :
    ((∀ i, i < b.host.Filesystems.length → ω i = .exited 0) →
      Backup.MakeSnap x b ω = (.nil, b.host.Filesystems.map (lvcreateCmd x b.namer))) ∧
    (∀ pre fs post, b.host.Filesystems = pre ++ fs :: post →
      (∀ i, i < pre.length → ω i = .exited 0) → ω pre.length ≠ .exited 0 →
      Backup.MakeSnap x b ω =
        (.err (.run (lvcreateCmd x b.namer fs) (ω pre.length)),
          (pre ++ [fs]).map (lvcreateCmd x b.namer))) ∧
    (∀ mnt, b.host.Filesystems = [⟨"vg0", "root", mnt⟩] → b.namer.date = "2024.01.15" →
      (Backup.MakeSnap x b ω).2 =
        [x.Sudoify (Command "lvcreate"
          ["-s", x.TextName (x.FsVgName ⟨"vg0", "root", mnt⟩), "-n", "root.2024.01.15"])]) := by
  have hv := verify_of_free b b.host.Filesystems hfree
  refine ⟨?_, ?_, ?_⟩
  · intro hall
    simp [Backup.MakeSnap, hv, construct_all_ok x b _ ω hall]
  · intro pre fs post hfss hpre hfail
    rw [hfss] at hv
    simp [Backup.MakeSnap, hfss, hv, construct_first_failure x b pre fs post ω hpre hfail]
  · intro mnt hfss hdate
    rw [hfss] at hv
    simp only [Backup.MakeSnap, hfss, hv, Backup.MakeSnap.construct, snapshot_eq,
      lvcreateCmd, hdate]
    by_cases hr : ω 0 = .exited 0
    · simp [hr, Run_ok]
    · simp [Run_of_ne _ _ hr]

/-- Witness of C6: `vg0/root` and `vg0/home` with an empty inventory; the
creation for `vg0/root` fails with status 5, so only
`lvcreate -s vg0/root -n root.2024.01.15` is issued. -/
theorem MakeSnap_creates_in_order_witness :
    (∀ fs ∈ (backupOf [rootFs, homeFs] []).host.Filesystems,
      (backupOf [rootFs, homeFs] []).lvm.HasSnap
        ((backupOf [rootFs, homeFs] []).namer.SnapVgName fs) = false) ∧
    Backup.MakeSnap specDeps (backupOf [rootFs, homeFs] []) (fun _ => .exited 5) =
      (.err (.run ⟨"lvcreate", ["-s", "vg0/root", "-n", "root.2024.01.15"], ""⟩ (.exited 5)),
        [⟨"lvcreate", ["-s", "vg0/root", "-n", "root.2024.01.15"], ""⟩]) :=
  ⟨by decide,
   (MakeSnap_creates_in_order specDeps (backupOf [rootFs, homeFs] []) (fun _ => .exited 5)
      (by decide)).2.1 [] rootFs [homeFs] rfl (fun _ hi => absurd hi (Nat.not_lt_zero _))
      (by decide)⟩

/-! ## Claims about the naming -/

/-- Claim C7: `Snapvol` is `<Lvname>.<date>` and `SnapVgName` is the volume of
that name in the volume group of the filesystem; both depend only on the
volume group, the logical volume and the date. -/
theorem SnapVgName_deterministic (n : Namer) (fs : FsInfo) :
    n.Snapvol fs = fs.Lvname ++ "." ++ n.date ∧
    n.SnapVgName fs = { VG := fs.Volgroup, LV := fs.Lvname ++ "." ++ n.date } ∧
    (∀ (n' : Namer) (fs' : FsInfo), n'.date = n.date → fs'.Volgroup = fs.Volgroup →
      fs'.Lvname = fs.Lvname → n'.SnapVgName fs' = n.SnapVgName fs) := by
  refine ⟨Snapvol_eq n fs, by simp [Namer.SnapVgName, Snapvol_eq], ?_⟩
  intro n' fs' hd hv hl
  simp [Namer.SnapVgName, Snapvol_eq, hd, hv, hl]

/-- Witness of C7: `vg0/root` on `2024.01.15`, named `root.2024.01.15`, also
when the entry has another mount point. -/
theorem SnapVgName_deterministic_witness :
    (⟨"2024.01.15"⟩ : Namer).Snapvol rootFs = "root.2024.01.15" ∧
    (⟨"2024.01.15"⟩ : Namer).SnapVgName rootFsElsewhere =
      (⟨"2024.01.15"⟩ : Namer).SnapVgName rootFs :=
  ⟨(SnapVgName_deterministic ⟨"2024.01.15"⟩ rootFs).1,
   (SnapVgName_deterministic ⟨"2024.01.15"⟩ rootFs).2.2 ⟨"2024.01.15"⟩ rootFsElsewhere
      rfl rfl rfl⟩

/-- Counterexample to C9: the entries `vg0/root` mounted at `/` and `vg0/root`
mounted at `/mnt/other` are different and get the same snapshot identity. -/
theorem SnapVgName_not_injective :
    rootFs ≠ rootFsElsewhere ∧
    (⟨"2024.01.15"⟩ : Namer).SnapVgName rootFs =
      (⟨"2024.01.15"⟩ : Namer).SnapVgName rootFsElsewhere := by
  decide

/-- Claim C9, amended: for a fixed `Namer`, two filesystem entries get the same
snapshot identity exactly when they have the same volume group and the same
logical volume; entries that differ in one of them get different identities. -/
theorem SnapVgName_unique_per_volume (n : Namer) (fs1 fs2 : FsInfo) :
    (n.SnapVgName fs1 = n.SnapVgName fs2 ↔
      (fs1.Volgroup = fs2.Volgroup ∧ fs1.Lvname = fs2.Lvname)) ∧
    ((fs1.Volgroup ≠ fs2.Volgroup ∨ fs1.Lvname ≠ fs2.Lvname) →
      n.SnapVgName fs1 ≠ n.SnapVgName fs2) := by
  refine ⟨SnapVgName_eq_iff n fs1 fs2, ?_⟩
  intro hne heq
  have h := (SnapVgName_eq_iff n fs1 fs2).mp heq
  rcases hne with hv | hl
  · exact hv h.1
  · exact hl h.2

/-- Witness of C9 (amended): `vg0/root` and `vg0/home` get different snapshot
identities. -/
theorem SnapVgName_unique_per_volume_witness :
    (rootFs.Volgroup ≠ homeFs.Volgroup ∨ rootFs.Lvname ≠ homeFs.Lvname) ∧
    (⟨"2024.01.15"⟩ : Namer).SnapVgName rootFs ≠
      (⟨"2024.01.15"⟩ : Namer).SnapVgName homeFs :=
  ⟨Or.inr (by decide),
   (SnapVgName_unique_per_volume ⟨"2024.01.15"⟩ rootFs homeFs).2 (Or.inr (by decide))⟩

/-! ## Claims about the cycle of one filesystem -/

/-- Claim C2: the commands of `goSureOne` are activate, fsck, mount, scan, cut
off right after the first step that fails, then umount exactly when the mount
succeeded and deactivate exactly when the activation succeeded.  A step
succeeds (its function returns nil) when its command exits with status 0, for
fsck with status 0 or 1.  When activation, fsck and mount succeed all six
commands are issued whatever the scan returns; when the mount fails,
deactivate follows it directly. -/
theorem goSureOne_trace (x : Deps) (b : Backup) (fs : FsInfo) (o : Outcomes) :
    (Backup.goSureOne x b fs o).2 =
      cutAfterFailure
        [((cycleCmds x b fs).activate, exitedZero o.activate),
         ((cycleCmds x b fs).fsck, exitedZeroOrOne o.fsck),
         ((cycleCmds x b fs).mount, exitedZero o.mount),
         ((cycleCmds x b fs).scan, exitedZero o.scan)]
      ++ (if exitedZero o.activate && exitedZeroOrOne o.fsck && exitedZero o.mount
            then [(cycleCmds x b fs).umount] else [])
      ++ (if exitedZero o.activate then [(cycleCmds x b fs).deactivate] else []) ∧
    (((Backup.activate x (b.namer.SnapVgName fs) o.activate).1 = .nil ↔
        exitedZero o.activate = true) ∧
     ((Backup.fsck x (b.namer.SnapVgName fs) o.fsck).1 = .nil ↔
        exitedZeroOrOne o.fsck = true) ∧
     ((Backup.mount x (b.namer.SnapVgName fs) (b.snapName fs) false o.mount).1 = .nil ↔
        exitedZero o.mount = true) ∧
     ((Backup.runGosure x b fs o.scan).1 = .nil ↔ exitedZero o.scan = true)) ∧
    (o.activate = .exited 0 → (o.fsck = .exited 0 ∨ o.fsck = .exited 1) →
      o.mount = .exited 0 →
      (Backup.goSureOne x b fs o).2 =
        [(cycleCmds x b fs).activate, (cycleCmds x b fs).fsck, (cycleCmds x b fs).mount,
         (cycleCmds x b fs).scan, (cycleCmds x b fs).umount,
         (cycleCmds x b fs).deactivate]) ∧
    (o.activate = .exited 0 → (o.fsck = .exited 0 ∨ o.fsck = .exited 1) →
      o.mount ≠ .exited 0 →
      (Backup.goSureOne x b fs o).2 =
        [(cycleCmds x b fs).activate, (cycleCmds x b fs).fsck, (cycleCmds x b fs).mount,
         (cycleCmds x b fs).deactivate]) := by
  refine ⟨?_, ⟨?_, ?_, ?_, ?_⟩, ?_, ?_⟩
  · rw [goSureOne_cases]
    by_cases ha : o.activate = .exited 0
    · by_cases hf : o.fsck = .exited 0 ∨ o.fsck = .exited 1
      · by_cases hm : o.mount = .exited 0
        · by_cases hs : o.scan = .exited 0 <;>
            simp [cutAfterFailure, exitedZero, exitedZeroOrOne, ha, hf, hm, hs]
        · simp [cutAfterFailure, exitedZero, exitedZeroOrOne, ha, hf, hm]
      · simp [cutAfterFailure, exitedZero, exitedZeroOrOne, ha, hf]
    · simp [cutAfterFailure, exitedZero, ha]
  · simp [Backup.activate, exitedZero, Run_eq_nil_iff]
  · simp [fsck_fst_eq_nil_iff, exitedZeroOrOne]
  · simp [Backup.mount, exitedZero, Run_eq_nil_iff]
  · simp [Backup.runGosure, exitedZero, Run_eq_nil_iff]
  · intro ha hf hm
    rw [goSureOne_cases]
    simp [ha, hf, hm]
  · intro ha hf hm
    rw [goSureOne_cases]
    simp [ha, hf, hm]

/-- Witness of C2: the cycle of `vg0/root` when fsck exits with status 1 and
the scan with status 2 (all six commands), and when the mount exits with
status 32 (deactivate directly after mount). -/
theorem goSureOne_trace_witness :
    (Backup.goSureOne specDeps (backupOf [rootFs] []) rootFs
        { allOk with fsck := .exited 1, scan := .exited 2 }).2 =
      [⟨"lvchange", ["-ay", "-K", "/dev/mapper/vg0-root.2024.01.15"], ""⟩,
       ⟨"fsck", ["-p", "-f", "/dev/mapper/vg0-root.2024.01.15"], ""⟩,
       ⟨"mount", ["/dev/mapper/vg0-root.2024.01.15", "/mnt/snap/root"], ""⟩,
       ⟨"/home/davidb/bin/gosure", ["-file", "/2sure", "update"], "/mnt/snap/root"⟩,
       ⟨"umount", ["/dev/mapper/vg0-root.2024.01.15"], ""⟩,
       ⟨"lvchange", ["-an", "/dev/mapper/vg0-root.2024.01.15"], ""⟩] ∧
    (Backup.goSureOne specDeps (backupOf [rootFs] []) rootFs
        { allOk with mount := .exited 32 }).2 =
      [⟨"lvchange", ["-ay", "-K", "/dev/mapper/vg0-root.2024.01.15"], ""⟩,
       ⟨"fsck", ["-p", "-f", "/dev/mapper/vg0-root.2024.01.15"], ""⟩,
       ⟨"mount", ["/dev/mapper/vg0-root.2024.01.15", "/mnt/snap/root"], ""⟩,
       ⟨"lvchange", ["-an", "/dev/mapper/vg0-root.2024.01.15"], ""⟩] :=
  ⟨(goSureOne_trace specDeps (backupOf [rootFs] []) rootFs
      { allOk with fsck := .exited 1, scan := .exited 2 }).2.2.1
      rfl (Or.inr rfl) rfl,
   (goSureOne_trace specDeps (backupOf [rootFs] []) rootFs
      { allOk with mount := .exited 32 }).2.2.2
      rfl (Or.inl rfl) (by decide)⟩

/-- Claim C3: `fsck` returns nil exactly for the exit statuses 0 and 1.  In a
cycle whose activation succeeded, the mount is the third command exactly for
these statuses; for every other status the cycle returns the error of fsck and
issues activate, fsck, deactivate and nothing else. -/
theorem fsck_status_zero_or_one (x : Deps) (b : Backup) (fs : FsInfo) (s : Nat) :
    (∀ vol : VgName, (Backup.fsck x vol (.exited s)).1 = .nil ↔ (s = 0 ∨ s = 1)) ∧
    (∀ o : Outcomes, o.activate = .exited 0 → o.fsck = .exited s →
      ((s = 0 ∨ s = 1) →
        (Backup.goSureOne x b fs o).2 =
          [(cycleCmds x b fs).activate, (cycleCmds x b fs).fsck, (cycleCmds x b fs).mount]
          ++ (if o.mount = .exited 0
                then [(cycleCmds x b fs).scan, (cycleCmds x b fs).umount] else [])
          ++ [(cycleCmds x b fs).deactivate]) ∧
      (¬ (s = 0 ∨ s = 1) →
        Backup.goSureOne x b fs o =
          (.err (.run (cycleCmds x b fs).fsck (.exited s)),
            [(cycleCmds x b fs).activate, (cycleCmds x b fs).fsck,
             (cycleCmds x b fs).deactivate]))) := by
  have hiff : (RunResult.exited s = .exited 0 ∨ RunResult.exited s = .exited 1) ↔
      (s = 0 ∨ s = 1) := by simp
  refine ⟨fun vol => by rw [fsck_fst_eq_nil_iff, hiff], ?_⟩
  intro o ha hf
  refine ⟨?_, ?_⟩
  · intro hs
    rw [goSureOne_cases]
    by_cases hm : o.mount = .exited 0
    · simp [ha, hf, hs, hm]
    · simp [ha, hf, hs, hm]
  · intro hs
    rw [goSureOne_cases, fsck_eq]
    have h0 : s ≠ 0 := fun h => hs (Or.inl h)
    have h1 : s ≠ 1 := fun h => hs (Or.inr h)
    match s, h0, h1 with
    | (k + 2), _, _ => simp [ha, hf, cycleCmds]

/-- Witness of C3: fsck exits with status 4 in the cycle of `vg0/root`; the
cycle returns that error after activate, fsck, deactivate. -/
theorem fsck_status_zero_or_one_witness :
    Backup.goSureOne specDeps (backupOf [rootFs] []) rootFs { allOk with fsck := .exited 4 } =
      (.err (.run ⟨"fsck", ["-p", "-f", "/dev/mapper/vg0-root.2024.01.15"], ""⟩ (.exited 4)),
        [⟨"lvchange", ["-ay", "-K", "/dev/mapper/vg0-root.2024.01.15"], ""⟩,
         ⟨"fsck", ["-p", "-f", "/dev/mapper/vg0-root.2024.01.15"], ""⟩,
         ⟨"lvchange", ["-an", "/dev/mapper/vg0-root.2024.01.15"], ""⟩]) :=
  ((fsck_status_zero_or_one specDeps (backupOf [rootFs] []) rootFs 4).2
    { allOk with fsck := .exited 4 } rfl rfl).2 (by decide)

/-- Claim C4, on the code: `mount` adds `-r` only when `writable` holds, and
`goSureOne` passes `false`; the mount command of the cycle of `vg0/root` has
the arguments device and mount point, without `-r`. -/
theorem goSureOne_mount_lacks_r :
    (Backup.goSureOne specDeps (backupOf [rootFs] []) rootFs allOk).2 =
      [⟨"lvchange", ["-ay", "-K", "/dev/mapper/vg0-root.2024.01.15"], ""⟩,
       ⟨"fsck", ["-p", "-f", "/dev/mapper/vg0-root.2024.01.15"], ""⟩,
       ⟨"mount", ["/dev/mapper/vg0-root.2024.01.15", "/mnt/snap/root"], ""⟩,
       ⟨"/home/davidb/bin/gosure", ["-file", "/2sure", "update"], "/mnt/snap/root"⟩,
       ⟨"umount", ["/dev/mapper/vg0-root.2024.01.15"], ""⟩,
       ⟨"lvchange", ["-an", "/dev/mapper/vg0-root.2024.01.15"], ""⟩] ∧
    (∀ (x : Deps) (vol : VgName) (dest : String) (r : RunResult),
      (Backup.mount x vol dest false r).2 =
        [x.Sudoify (Command "mount" [x.DevName vol, dest])] ∧
      (Backup.mount x vol dest true r).2 =
        [x.Sudoify (Command "mount" ["-r", x.DevName vol, dest])]) :=
  ⟨by decide, fun _ _ _ _ => ⟨rfl, rfl⟩⟩

/-- Counterexample to C8: for `vg0/root`, mounted at `/`, the scanner runs in
`/mnt/snap/root` with the catalog file `/2sure`, which is not
`/mnt/snap/root/2sure`. -/
theorem runGosure_catalog_not_in_workdir :
    (Backup.runGosure specDeps (backupOf [rootFs] []) rootFs (.exited 0)).2 =
      [⟨"/home/davidb/bin/gosure", ["-file", "/2sure", "update"], "/mnt/snap/root"⟩] ∧
    pathJoin ((backupOf [rootFs] []).snapName rootFs) "2sure" = "/mnt/snap/root/2sure" ∧
    (Backup.runGosure specDeps (backupOf [rootFs] []) rootFs (.exited 0)).2 ≠
      [scanCmd specDeps (pathJoin ((backupOf [rootFs] []).snapName rootFs) "2sure")
        ((backupOf [rootFs] []).snapName rootFs)] := by
  decide

/-- Claim C8, amended: `runGosure` runs the scanner in the directory
`path.Join(host.Snapdir, fs.Lvname)` with the arguments `-file P update`, where
`P = path.Join(fs.Mount, "2sure")` lies under the configured mount point of the
filesystem; it returns nil exactly when the scanner exits with status 0. -/
theorem runGosure_command (x : Deps) (b : Backup) (fs : FsInfo) (r : RunResult) :
    (Backup.runGosure x b fs r).2 =
      [{ x.Sudoify (Command gosurePath ["-file", pathJoin fs.Mount "2sure", "update"]) with
          dir := pathJoin b.host.Snapdir fs.Lvname }] ∧
    ((Backup.runGosure x b fs r).1 = .nil ↔ r = .exited 0) := by
  refine ⟨rfl, ?_⟩
  simp [Backup.runGosure, Run_eq_nil_iff]

theorem goSureOne_result_eq_firstFailure (x : Deps) (b : Backup) (fs : FsInfo)
    (o : Outcomes) :
    (Backup.goSureOne x b fs o).1 =
      firstFailure
        [(Backup.activate x (b.namer.SnapVgName fs) o.activate).1,
         (Backup.fsck x (b.namer.SnapVgName fs) o.fsck).1,
         (Backup.mount x (b.namer.SnapVgName fs) (b.snapName fs) false o.mount).1,
         (Backup.runGosure x b fs o.scan).1] := by
  rw [goSureOne_cases]
  by_cases ha : o.activate = .exited 0
  · by_cases hf : o.fsck = .exited 0 ∨ o.fsck = .exited 1
    · have hf' := (fsck_fst_eq_nil_iff x (b.namer.SnapVgName fs) o.fsck).mpr hf
      by_cases hm : o.mount = .exited 0
      · by_cases hs : o.scan = .exited 0
        · simp [firstFailure, Backup.activate, Backup.mount, Backup.runGosure, cycleCmds,
            mountCmd, scanCmd, ha, hf, hf', hm, hs, Run_ok]
        · simp [firstFailure, Backup.activate, Backup.mount, Backup.runGosure, cycleCmds,
            mountCmd, scanCmd, ha, hf, hf', hm, hs, Run_ok, Run_eq_nil_iff]
      · simp [firstFailure, Backup.activate, Backup.mount, cycleCmds, mountCmd, ha, hf,
          hf', hm, Run_ok, Run_eq_nil_iff]
    · have hf' : ¬ (Backup.fsck x (b.namer.SnapVgName fs) o.fsck).1 = .nil :=
        fun h => hf ((fsck_fst_eq_nil_iff x _ o.fsck).mp h)
      simp [firstFailure, Backup.activate, ha, hf, hf', Run_ok]
  · simp [firstFailure, Backup.activate, cycleCmds, activateCmd, ha, Run_eq_nil_iff]

/-- Claim C10, on the code: when the fsck command cannot be started, `fsck`
reads the exit status from a `cmd.ProcessState` that is nil and panics, so
`goSureOne` does not return the error of fsck, its first failing step: it ends
by that panic after activate, fsck and the deferred deactivate.  This holds for
`vg0/root` and for every filesystem and every outcome of the other commands.
The outcomes of umount and deactivate never change how `goSureOne` ends. -/
theorem goSureOne_panics_when_fsck_not_started :
    Backup.goSureOne specDeps (backupOf [rootFs] []) rootFs
        { allOk with fsck := .notStarted } =
      (.panic,
        [⟨"lvchange", ["-ay", "-K", "/dev/mapper/vg0-root.2024.01.15"], ""⟩,
         ⟨"fsck", ["-p", "-f", "/dev/mapper/vg0-root.2024.01.15"], ""⟩,
         ⟨"lvchange", ["-an", "/dev/mapper/vg0-root.2024.01.15"], ""⟩]) ∧
    Run (fsckCmd specDeps ⟨"vg0", "root.2024.01.15"⟩) .notStarted =
      .err (.run ⟨"fsck", ["-p", "-f", "/dev/mapper/vg0-root.2024.01.15"], ""⟩ .notStarted) ∧
    (∀ (x : Deps) (vol : VgName),
      Backup.fsck x vol .notStarted = (.panic, [fsckCmd x vol])) ∧
    (∀ (x : Deps) (b : Backup) (fs : FsInfo) (m s u d : RunResult),
      Backup.goSureOne x b fs ⟨.exited 0, .notStarted, m, s, u, d⟩ =
        (.panic,
          [(cycleCmds x b fs).activate, (cycleCmds x b fs).fsck,
           (cycleCmds x b fs).deactivate])) ∧
    (∀ (x : Deps) (b : Backup) (fs : FsInfo) (o : Outcomes) (u d : RunResult),
      (Backup.goSureOne x b fs { o with umount := u, deactivate := d }).1 =
        (Backup.goSureOne x b fs o).1) := by
  refine ⟨by decide, by decide, ?_, ?_, ?_⟩
  · intro x vol
    rw [fsck_eq]
  · intro x b fs m s u d
    rw [goSureOne_cases, fsck_eq]
    simp
  · intro x b fs o u d
    rw [goSureOne_cases, goSureOne_cases]

/-! ## Claims about the run over all filesystems -/

/-- Counterexample to C5: `vg0/root` and `vg0/home` are configured and the
activation of the first snapshot fails; `GoSure` issues that one command and
none of the cycle of `vg0/home`. -/
theorem GoSure_skips_later_filesystems :
    Backup.GoSure specDeps (backupOf [rootFs, homeFs] [])
        (fun i => if i = 0 then activationFails else allOk) =
      (.err (.run ⟨"lvchange", ["-ay", "-K", "/dev/mapper/vg0-root.2024.01.15"], ""⟩
          (.exited 5)),
        [⟨"lvchange", ["-ay", "-K", "/dev/mapper/vg0-root.2024.01.15"], ""⟩]) ∧
    (Backup.goSureOne specDeps (backupOf [rootFs, homeFs] []) homeFs allOk).2.length = 6 ∧
    (∀ c ∈ (Backup.goSureOne specDeps (backupOf [rootFs, homeFs] []) homeFs allOk).2,
      c ∉ (Backup.GoSure specDeps (backupOf [rootFs, homeFs] [])
        (fun i => if i = 0 then activationFails else allOk)).2) := by
  decide

/-- Claim C5, amended: `GoSure` runs the cycles in configuration order up to
and including the first one that does not return nil, runs no cycle of a later
filesystem, and ends as that cycle does; when every cycle returns nil it runs
all of them and returns nil. -/
theorem GoSure_stops_at_first_failure (x : Deps) (b : Backup) (ω : Nat → Outcomes) :
    ((∀ c ∈ everyCycle x b ω b.host.Filesystems, c.1 = .nil) →
      Backup.GoSure x b ω = (.nil, commandsOf (everyCycle x b ω b.host.Filesystems))) ∧
    (∀ pre fs post, b.host.Filesystems = pre ++ fs :: post →
      (∀ c ∈ everyCycle x b ω pre, c.1 = .nil) →
      (Backup.goSureOne x b fs (ω pre.length)).1 ≠ .nil →
      Backup.GoSure x b ω =
        ((Backup.goSureOne x b fs (ω pre.length)).1,
          commandsOf (everyCycle x b ω pre) ++ (Backup.goSureOne x b fs (ω pre.length)).2)) := by
  refine ⟨?_, ?_⟩
  · intro hall
    exact loop_all_nil x b _ ω hall
  · intro pre fs post hfss hpre hfail
    simp only [Backup.GoSure, hfss]
    exact loop_first_failure x b pre fs post ω hpre hfail

/-- Witness of C5 (amended): `vg0/home` then `vg0/root`; the first cycle
succeeds and the activation of the second fails. -/
theorem GoSure_stops_at_first_failure_witness :
    (Backup.GoSure specDeps (backupOf [homeFs, rootFs] [])
        (fun i => if i = 0 then allOk else activationFails)).1 =
      .err (.run ⟨"lvchange", ["-ay", "-K", "/dev/mapper/vg0-root.2024.01.15"], ""⟩
        (.exited 5)) ∧
    (Backup.GoSure specDeps (backupOf [homeFs, rootFs] []) (fun _ => allOk)).1 = .nil :=
  ⟨congrArg Prod.fst
    ((GoSure_stops_at_first_failure specDeps (backupOf [homeFs, rootFs] [])
      (fun i => if i = 0 then allOk else activationFails)).2 [homeFs] rootFs [] rfl
      (by decide) (by decide)),
   congrArg Prod.fst
    ((GoSure_stops_at_first_failure specDeps (backupOf [homeFs, rootFs] [])
      (fun _ => allOk)).1 (by decide))⟩

end Goback
